import Mathlib

/-!
Shallow embedding of CrateShuffle (src/crate_shuffle.py) in Lean 4.

Python strings are modelled as lists of characters (PyStr); Python's
str methods used by the program (title, strip, lower, split, replace)
are translated below.  Dict-like tag containers returned by mutagen are
modelled by the MetadataView structure holding the keys the program
reads ('genre', 'TCON', 'description', 'COMM::Pur'), each an optional
list of strings, as the spec's data model describes.  Code that can
raise a Python exception is embedded with Option (none = raised).
-/

/-- Python strings as lists of characters. -/
abbrev PyStr := List Char

/-- Coerce a Lean string literal to the PyStr model. -/
def pstr (s : String) : PyStr := s.data

/-- Python str.title() : each letter starting a run of letters is
uppercased, subsequent letters of the run are lowercased; other
characters pass through and reset the run. -/
def pyTitleGo : Bool → List Char → List Char
  | _, [] => []
  | prevCased, c :: cs =>
    if c.isAlpha then
      (if prevCased then c.toLower else c.toUpper) :: pyTitleGo true cs
    else
      c :: pyTitleGo false cs

/-- Python str.title() entry point (no preceding cased character). -/
def pyTitle (s : PyStr) : PyStr := pyTitleGo false s

/-- Python str.strip() : drop whitespace from both ends. -/
def pyStrip (s : PyStr) : PyStr :=
  ((s.dropWhile Char.isWhitespace).reverse.dropWhile Char.isWhitespace).reverse

/-- Python str.lower() : character-wise lowercasing. -/
def pyLower (s : PyStr) : PyStr := s.map Char.toLower

/-- Python str.replace for a single character, as in genre.replace('/', ','). -/
def pyReplaceChar (a b : Char) (s : PyStr) : PyStr :=
  s.map (fun c => if c = a then b else c)

/-- Python s.split(sep) with an explicit one-character separator:
splitting the empty string yields one empty field, and consecutive
separators yield empty fields. -/
def pySplit (sep : Char) : PyStr → List PyStr
  | [] => [[]]
  | c :: cs =>
    if c = sep then
      [] :: pySplit sep cs
    else
      match pySplit sep cs with
      | [] => [[c]]
      | t :: ts => (c :: t) :: ts

/-- First field of a split result, as in s.split(',')[0]. -/
def firstSeg : List PyStr → PyStr
  | [] => []
  | x :: _ => x

/-- Last field of a split result, as in s.split('.')[-1]. -/
def lastSeg : List PyStr → PyStr
  | [] => []
  | [x] => x
  | _ :: x :: xs => lastSeg (x :: xs)

/-- Does the pattern p :: ps occur at the head of the string? -/
def startsWith : PyStr → PyStr → Bool
  | [], _ => true
  | _ :: _, [] => false
  | p :: ps, c :: cs => p = c && startsWith ps cs

/-- Worker for pyReplaceAll, structurally recursive on a fuel bound so
that it reduces inside the kernel; each step consumes at least one
character, so fuel equal to the string length is never exhausted. -/
def pyReplaceAllGo (p : Char) (ps rep : PyStr) : Nat → PyStr → PyStr
  | _, [] => []
  | 0, s => s
  | fuel + 1, c :: cs =>
    if startsWith (p :: ps) (c :: cs) then
      rep ++ pyReplaceAllGo p ps rep fuel (cs.drop ps.length)
    else
      c :: pyReplaceAllGo p ps rep fuel cs

/-- Python str.replace(pat, rep) for a nonempty pattern p :: ps :
replace non-overlapping occurrences left to right. -/
def pyReplaceAll (p : Char) (ps rep : PyStr) (s : PyStr) : PyStr :=
  pyReplaceAllGo p ps rep s.length s

/-- The extension of a Python path/filename in this program's idiom:
filename.split('.')[-1]. -/
def extOf (s : PyStr) : PyStr := lastSeg (pySplit '.' s)

/-- os.path.join for a relative second component. -/
def osJoin (a b : PyStr) : PyStr := a ++ '/' :: b

/-- Tag container view: the keys crate_shuffle reads from a mutagen
object, each an optional ordered list of text values ('genre', 'TCON',
'description', 'COMM::Pur'). -/
structure MetadataView where
  genre : Option (List PyStr)
  tcon : Option (List PyStr)
  description : Option (List PyStr)
  commPur : Option (List PyStr)
deriving DecidableEq

def unknownStr : PyStr := pstr "Unknown"
def l0Str : PyStr := pstr "l0"
def noCommentStr : PyStr := pstr "No Comment"
def mp3Ext : PyStr := pstr "mp3"
def flacExt : PyStr := pstr "flac"
def oggExt : PyStr := pstr "ogg"
def dotMp3 : PyStr := pstr ".mp3"

/-- get_audiofile: the external tag reader returns a metadata view for
the three recognized extensions and None (with a warning) otherwise.
The reader itself is an external collaborator; its successful result is
the supplied tags. -/
def getAudiofile (ext : PyStr) (tags : MetadataView) : Option MetadataView :=
  if ext = mp3Ext ∨ ext = flacExt ∨ ext = oggExt then some tags else none

/-- The value of the first genre key present, scanning 'genre' then
'TCON' as the loop in get_genre does (values are lists in this model,
so the type(...) == list guard always passes). -/
def firstGenreVal (af : MetadataView) : Option (List PyStr) :=
  match af.genre with
  | some v => some v
  | none => af.tcon

/-- Final line of get_genre: genre.split(',')[0].strip(). -/
def genreFinal (g : PyStr) : PyStr := pyStrip (firstSeg (pySplit ',' g))

/-- get_genre.  For a None audiofile returns 'Unknown' directly.
Otherwise takes the first present genre key, indexes its value at 0
(IndexError on an empty list is modelled as none), title-cases, strips,
replaces '/' with ',', and finally keeps the segment before the first
comma, stripped.  When no genre key is present the default 'Unknown'
flows through the final split/strip. -/
def getGenre : Option MetadataView → Option PyStr
  | none => some unknownStr
  | some af =>
    match firstGenreVal af with
    | none => some (genreFinal unknownStr)
    | some [] => none
    | some (x :: _) =>
      some (genreFinal (pyReplaceChar '/' ',' (pyStrip (pyTitle x))))

/-- Comment selection in get_level: first key among 'description',
'COMM::Pur', 'TCON' whose value indexes successfully at 0 (the body is
wrapped in try/except, so a present empty list falls through to the
next key); default 'No Comment'. -/
def getComment (af : MetadataView) : PyStr :=
  match af.description with
  | some (x :: _) => x
  | _ =>
    match af.commPur with
    | some (x :: _) => x
    | _ =>
      match af.tcon with
      | some (x :: _) => x
      | _ => noCommentStr

/-- Does the token match the anchored regex of a single level,
l followed by one digit? -/
def isLevelTok : PyStr → Bool
  | [a, b] => a = 'l' && b.isDigit
  | _ => false

/-- Does the token match the anchored range regex,
l digit - l digit? -/
def isMultiTok : PyStr → Bool
  | [a, b, c, d, e] => a = 'l' && b.isDigit && c = '-' && d = 'l' && e.isDigit
  | _ => false

/-- The token loop of get_level: strip each token, test the single
level pattern first, then the range pattern, returning the first token
matching either; 'Unknown' when none matches. -/
def scanTokens : List PyStr → PyStr
  | [] => unknownStr
  | t :: ts =>
    let t' := pyStrip t
    if isLevelTok t' then t'
    else if isMultiTok t' then t'
    else scanTokens ts

/-- Level computation from a comment string: split on commas and scan. -/
def getLevelFromComment (comment : PyStr) : PyStr :=
  scanTokens (pySplit ',' comment)

/-- get_level: 'l0' for a None audiofile, otherwise scan the comment. -/
def getLevel : Option MetadataView → PyStr
  | none => l0Str
  | some af => getLevelFromComment (getComment af)

/-- get_destination_subfolder: os.path.join(genre, level).  A raised
IndexError inside get_genre propagates (none); the function never
returns the Python value None. -/
def getDestinationSubfolder (af : Option MetadataView) : Option (PyStr × PyStr) :=
  (getGenre af).map (fun g => (g, getLevel af))

/-- fix_ffmpeg_tag: take the first value of the list (IndexError on an
empty list modelled as none); if the first half equals the remainder
after the middle character, collapse to the first half, else return
the list unchanged. -/
def fixFfmpegTag : List PyStr → Option (List PyStr)
  | [] => none
  | tag :: rest =>
    if tag.take (tag.length / 2) = tag.drop (tag.length / 2 + 1) then
      some [tag.take (tag.length / 2)]
    else
      some (tag :: rest)

/-- The module-level concurrency constant. -/
def THREADPOOL_SIZE : Nat := 3

/-- Filesystem entry kinds, enough for os.path.isdir / isfile /
os.stat existence checks. -/
inductive FType
  | file
  | dir
  | absent
deriving DecidableEq

/-- A filesystem view: what kind of entry sits at each path string. -/
def FS := PyStr → FType

/-- Write side effects the program can perform on the filesystem. -/
inductive Effect
  | mkdirs (p : PyStr)
  | copy (src dst : PyStr)
  | encode (src dst : PyStr)
  | saveTags (dst : PyStr)
deriving DecidableEq

/-- Per-file outcome of the loop body of main.  skip outcomes are a
logged 'continue'; crashed is an uncaught exception that aborts the
whole run; dispatched means a transcode thread was started for the
given destination. -/
inductive Outcome
  | crashed
  | skipDestIsFile
  | skipExists
  | skipExistsStat
  | dispatched (dst : PyStr)
  | copyDry (dst : PyStr)
  | copied (dst : PyStr)
deriving DecidableEq

structure Flags where
  transcode : Bool
  overwrite : Bool
  dryrun : Bool
deriving DecidableEq

/-- Outcomes of transcode_file. -/
inductive TOutcome
  | assertFailed
  | dryDone
  | encodeFailed
  | done
deriving DecidableEq

/-- transcode_file, running under the semaphore (modelled separately):
assert that the destination's last dot segment is mp3 (AssertionError
kills the thread, no effects); on dryrun return after logging; then
invoke ffmpeg (encodeOk abstracts its exit status); on success repair
the tags and save them back. -/
def transcodeFile (src dest : PyStr) (dryrun : Bool) (encodeOk : Bool) :
    TOutcome × List Effect :=
  if extOf dest ≠ mp3Ext then (.assertFailed, [])
  else if dryrun then (.dryDone, [])
  else if encodeOk then (.done, [.encode src dest, .saveTags dest])
  else (.encodeFailed, [.encode src dest])

/-- Dispatch tail of the loop body of main, entered after the
destination directory handling: compute dest_fname (rewriting the
extension by textual replace when transcoding), apply the
exists/overwrite skip, then either start a transcode thread or take
the copy branch with its second os.stat existence check. -/
def mainDispatch (fs : FS) (src base : PyStr) (fl : Flags)
    (destPath : PyStr) (effs : List Effect) : Outcome × List Effect :=
  let ext := pyLower (extOf base)
  let dest0 := osJoin destPath base
  let destFname :=
    if ext ≠ mp3Ext ∧ fl.transcode then pyReplaceAll '.' ext dotMp3 dest0
    else dest0
  if fs destFname = .file ∧ fl.overwrite = false then (.skipExists, effs)
  else if ext ≠ mp3Ext ∧ fl.transcode then (.dispatched destFname, effs)
  else if fs destFname ≠ .absent ∧ fl.overwrite = false then (.skipExistsStat, effs)
  else if fl.dryrun then (.copyDry destFname, effs)
  else (.copied destFname, effs ++ [.copy src destFname])

/-- Destination directory handling of the loop body of main: if
dest_path is already a directory continue; if it exists as a plain
file, skip with a warning; otherwise os.makedirs — which raises
(uncaught, aborting the run) when the intermediate genre component
exists as a plain file, and otherwise records the directory creation.
Note that the creation happens regardless of the dryrun flag. -/
def mainAfterClassify (fs : FS) (destination src base : PyStr) (fl : Flags)
    (g l : PyStr) : Outcome × List Effect :=
  let destPath := osJoin (osJoin destination g) l
  if fs destPath = .dir then
    mainDispatch fs src base fl destPath []
  else if fs destPath = .file then (.skipDestIsFile, [])
  else if fs (osJoin destination g) = .file then (.crashed, [])
  else mainDispatch fs src base fl destPath [.mkdirs destPath]

/-- One iteration of the walk loop in main for a file with basename
base and tag content tags: read the audiofile (None for unrecognized
extensions), classify (a raised exception aborts the run; the
sub_folder-is-None skip branch is dead because get_destination_subfolder
always returns a string), then handle directories and dispatch.  The
effects of a dispatched transcode thread are given by transcodeFile. -/
def processFile (fs : FS) (destination src base : PyStr)
    (tags : MetadataView) (fl : Flags) : Outcome × List Effect :=
  let af := getAudiofile (pyLower (extOf base)) tags
  match getDestinationSubfolder af with
  | none => (.crashed, [])
  | some (g, l) => mainAfterClassify fs destination src base fl g l

/-- Effects that write file content (everything except directory
creation). -/
def isFileWrite : Effect → Bool
  | .mkdirs _ => false
  | _ => true

/-!
Transition-system model of the threading in main and transcode_file:
main dispatches one thread per transcode job, each thread brackets its
work in the BoundedSemaphore of capacity THREADPOOL_SIZE, and main
joins every dispatched thread before returning.  Threads are
indistinguishable, so the state tracks how many jobs are in each phase
together with the semaphore's available-permit count.  A job is
running exactly while it holds a permit, which is when the encoder
subprocess may execute; with-blocks release the permit on both normal
exit and exception. -/
structure PoolState where
  pending : Nat
  running : Nat
  finished : Nat
  sem : Nat
  done : Bool
deriving DecidableEq

/-- Initial state: no jobs dispatched, all permits free, main not yet
returned. -/
def initPool : PoolState := ⟨0, 0, 0, THREADPOOL_SIZE, false⟩

/-- Atomic steps of the run: main dispatches a job (only while it has
not returned); a pending thread acquires a free permit and starts the
encoder; a running thread finishes (success, failure or assertion) and
releases its permit; main returns once every dispatched job has
finished (the join loop). -/
inductive PoolStep : PoolState → PoolState → Prop
  | dispatch (s : PoolState) (h : s.done = false) :
      PoolStep s ⟨s.pending + 1, s.running, s.finished, s.sem, false⟩
  | acquire (s : PoolState) (hp : 0 < s.pending) (hs : 0 < s.sem) :
      PoolStep s ⟨s.pending - 1, s.running + 1, s.finished, s.sem - 1, s.done⟩
  | release (s : PoolState) (hr : 0 < s.running) :
      PoolStep s ⟨s.pending, s.running - 1, s.finished + 1, s.sem + 1, s.done⟩
  | joinAll (s : PoolState) (hp : s.pending = 0) (hr : s.running = 0) :
      PoolStep s ⟨0, 0, s.finished, s.sem, true⟩

/-- States reachable from the initial state. -/
inductive PoolReachable : PoolState → Prop
  | init : PoolReachable initPool
  | step {s t : PoolState} : PoolReachable s → PoolStep s t → PoolReachable t

/-- The semaphore invariant: permits held by running jobs plus free
permits equals the capacity, and after main returns no job is pending
or running. -/
def poolInv (s : PoolState) : Prop :=
  s.running + s.sem = THREADPOOL_SIZE ∧
  (s.done = true → s.pending = 0 ∧ s.running = 0)

lemma poolInv_init : poolInv initPool := by
  constructor
  · rfl
  · intro h
    exact absurd h (by simp [initPool])

lemma poolInv_step {s t : PoolState} (hinv : poolInv s) (hst : PoolStep s t) :
    poolInv t := by
  obtain ⟨hsem, hdone⟩ := hinv
  cases hst with
  | dispatch h =>
    refine ⟨hsem, ?_⟩
    intro hc
    exact absurd hc (by simp)
  | acquire hp hs =>
    refine ⟨by simp; omega, ?_⟩
    intro hd
    obtain ⟨h1, h2⟩ := hdone hd
    omega
  | release hr =>
    refine ⟨by simp; omega, ?_⟩
    intro hd
    obtain ⟨h1, h2⟩ := hdone hd
    omega
  | joinAll hp hr =>
    refine ⟨by simp; omega, ?_⟩
    intro _
    exact ⟨rfl, rfl⟩

lemma poolInv_reachable {s : PoolState} (h : PoolReachable s) : poolInv s := by
  induction h with
  | init => exact poolInv_init
  | step _ hst ih => exact poolInv_step ih hst

/-!
Concrete fixtures used by the per-claim evaluations below.
-/

/-- A metadata view with genre Rock and comment l3, the shape produced
for a well-tagged file. -/
def rockTags : MetadataView :=
  ⟨some [pstr "Rock"], none, some [pstr "l3"], none⟩

/-- A destination tree with nothing in it yet. -/
def freshFS : FS := fun _ => FType.absent

/-- A destination tree where the intermediate genre component
/out/Rock already exists as a plain file. -/
def conflictGenreFS : FS := fun p =>
  if p = pstr "/out" then FType.dir
  else if p = pstr "/out/Rock" then FType.file
  else FType.absent

/-- A destination tree where the full genre/level directory path
/out/Unknown/l0 already exists as a plain file. -/
def conflictLeafFS : FS := fun p =>
  if p = pstr "/out/Unknown/l0" then FType.file
  else FType.absent

/-!
Helper lemmas.
-/

lemma pySplit_ne_nil (sep : Char) (s : PyStr) : pySplit sep s ≠ [] := by
  cases s with
  | nil => simp [pySplit]
  | cons c cs =>
    simp only [pySplit]
    split
    · simp
    · split <;> simp

lemma firstSeg_pySplit (sep : Char) (s : PyStr) :
    firstSeg (pySplit sep s) = s.takeWhile (fun c => c != sep) := by
  induction s with
  | nil => rfl
  | cons c cs ih =>
    by_cases h : c = sep
    · subst h
      simp [pySplit, firstSeg, List.takeWhile_cons]
    · cases hr : pySplit sep cs with
      | nil => exact absurd hr (pySplit_ne_nil sep cs)
      | cons t ts =>
        rw [hr] at ih
        simp only [pySplit, hr, if_neg h, firstSeg]
        simp only [firstSeg] at ih
        simp [List.takeWhile_cons, h, ih]

lemma scanTokens_eq_find (ts : List PyStr) :
    scanTokens ts =
      (((ts.map pyStrip).find? (fun t => isLevelTok t || isMultiTok t)).getD
        unknownStr) := by
  induction ts with
  | nil => rfl
  | cons t ts ih =>
    by_cases h1 : isLevelTok (pyStrip t)
    · rw [scanTokens, if_pos h1, List.map_cons,
        List.find?_cons_of_pos _ (by simp [h1])]
      rfl
    · by_cases h2 : isMultiTok (pyStrip t)
      · rw [scanTokens, if_neg h1, if_pos h2, List.map_cons,
          List.find?_cons_of_pos _ (by simp [h2])]
        rfl
      · rw [scanTokens, if_neg h1, if_neg h2, List.map_cons,
          List.find?_cons_of_neg _ (by simp [h1, h2]), ih]

lemma mainDispatch_dryrun_effects (fs : FS) (src base : PyStr) (fl : Flags)
    (destPath : PyStr) (effs : List Effect) (hd : fl.dryrun = true) :
    (mainDispatch fs src base fl destPath effs).2 = effs := by
  simp only [mainDispatch, hd]
  repeat' split
  all_goals first
  | rfl
  | simp_all

lemma processFile_dryrun_effects (fs : FS) (destination src base : PyStr)
    (tags : MetadataView) (fl : Flags) (hd : fl.dryrun = true) :
    (processFile fs destination src base tags fl).2 = [] ∨
    ∃ p, (processFile fs destination src base tags fl).2 = [Effect.mkdirs p] := by
  cases hsub : getDestinationSubfolder (getAudiofile (pyLower (extOf base)) tags) with
  | none => left; simp [processFile, hsub]
  | some gl =>
    obtain ⟨g, l⟩ := gl
    simp only [processFile, hsub, mainAfterClassify]
    split
    · left
      exact mainDispatch_dryrun_effects fs src base fl _ [] hd
    · split
      · left; rfl
      · split
        · left; rfl
        · right
          exact ⟨_, mainDispatch_dryrun_effects fs src base fl _ _ hd⟩

/-!
Claim theorems.
-/

/-- C1 (code bug): a file whose extension is recognized by neither the
mp3, flac nor ogg reader is NOT skipped by the orchestrator.
get_audiofile returns None with a warning, but
get_destination_subfolder(None) is the string 'Unknown/l0', never the
Python value None, so the skip branch in main is dead: the file is
classified into Unknown/l0 and copied (or transcoded) into the
destination tree.  Here song.wav, with transcode off and an empty
destination, is copied to /out/Unknown/l0/song.wav. -/
theorem c1_unsupported_file_copied_not_skipped :
    getAudiofile (pyLower (extOf (pstr "song.wav"))) rockTags = none ∧
    processFile freshFS (pstr "/out") (pstr "/lib/song.wav") (pstr "song.wav")
      rockTags ⟨false, false, false⟩ =
      (Outcome.copied (pstr "/out/Unknown/l0/song.wav"),
       [Effect.mkdirs (pstr "/out/Unknown/l0"),
        Effect.copy (pstr "/lib/song.wav") (pstr "/out/Unknown/l0/song.wav")]) :=
  ⟨by decide, by decide⟩

/-- C2 counterexample: with dryRun=true the run still creates the
destination genre/level directories — os.makedirs is executed before
the dryrun flag is ever consulted — so a dry run is not free of
filesystem writes. -/
theorem c2_dryrun_still_creates_directories :
    processFile freshFS (pstr "/out") (pstr "/lib/a.mp3") (pstr "a.mp3")
      rockTags ⟨false, false, true⟩ =
      (Outcome.copyDry (pstr "/out/Rock/l3/a.mp3"),
       [Effect.mkdirs (pstr "/out/Rock/l3")]) := by decide

/-- C2 (amended): when dryRun=true no file-content write occurs — no
file copy, no encoder invocation, no tag save — regardless of the
transcode and overwrite flags; only directory creation may still
happen.  The transcode worker, handed dryrun=true, performs no effects
at all. -/
theorem c2_dryrun_no_file_writes (fs : FS) (destination src base : PyStr)
    (tags : MetadataView) (fl : Flags) (hd : fl.dryrun = true) :
    (∀ e ∈ (processFile fs destination src base tags fl).2, isFileWrite e = false) ∧
    (∀ s d : PyStr, ∀ encodeOk : Bool, (transcodeFile s d true encodeOk).2 = []) := by
  constructor
  · intro e he
    rcases processFile_dryrun_effects fs destination src base tags fl hd with h | ⟨p, h⟩
    · rw [h] at he
      simp at he
    · rw [h] at he
      simp at he
      rw [he]
      rfl
  · intro s d encodeOk
    simp only [transcodeFile]
    split
    · rfl
    · rfl

/-- C2 witness: the amended theorem applied at a concrete dry run whose
only effect is the directory creation shown in the counterexample. -/
theorem c2_dryrun_no_file_writes_witness :
    isFileWrite (Effect.mkdirs (pstr "/out/Rock/l3")) = false :=
  (c2_dryrun_no_file_writes freshFS (pstr "/out") (pstr "/lib/a.mp3") (pstr "a.mp3")
    rockTags ⟨false, false, true⟩ rfl).1 (Effect.mkdirs (pstr "/out/Rock/l3"))
    (by decide)

/-- C3 (code bug): main lowercases the source extension before the
textual replace, but str.replace is case-sensitive, so a file named
track.FLAC keeps its uppercase extension: the destination handed to
the dispatched transcode worker is /out/Rock/l3/track.FLAC, and the
worker's assertion that the destination's final extension is mp3
fails (AssertionError), contradicting the claim that it never fails. -/
theorem c3_uppercase_extension_assert_fails :
    processFile freshFS (pstr "/out") (pstr "/lib/track.FLAC") (pstr "track.FLAC")
      rockTags ⟨true, false, false⟩ =
      (Outcome.dispatched (pstr "/out/Rock/l3/track.FLAC"),
       [Effect.mkdirs (pstr "/out/Rock/l3")]) ∧
    transcodeFile (pstr "/lib/track.FLAC") (pstr "/out/Rock/l3/track.FLAC")
      false true = (TOutcome.assertFailed, []) :=
  ⟨by decide, by decide⟩

/-- C4 counterexample: a metadata view whose 'genre' key is present
with an empty value list makes get_genre raise IndexError (modelled as
none): classification is not total on every list value. -/
theorem c4_empty_genre_value_raises :
    getGenre (some ⟨some [], none, none, none⟩) = none := by decide

/-- C4 (amended): classification never raises for missing fields, and
get_level is total even on empty value lists (its indexing is wrapped
in try/except); get_genre returns a string for every view whose first
present genre key has a non-empty value list (and for views with no
genre key, and for absent metadata).  The one exception, an empty-list
genre value, raises. -/
theorem c4_classification_total_amended (ma : Option MetadataView)
    (h : ∀ af, ma = some af → firstGenreVal af ≠ some []) :
    (∃ s, getGenre ma = some s) ∧
    getLevel (some ⟨some [], some [], some [], some []⟩) = unknownStr := by
  constructor
  · cases ma with
    | none => exact ⟨unknownStr, rfl⟩
    | some af =>
      cases hv : firstGenreVal af with
      | none => exact ⟨genreFinal unknownStr, by simp [getGenre, hv]⟩
      | some v =>
        cases v with
        | nil => exact absurd hv (h af rfl)
        | cons x xs =>
          exact ⟨genreFinal (pyReplaceChar '/' ',' (pyStrip (pyTitle x))),
            by simp [getGenre, hv]⟩
  · decide

/-- C4 witness: the amended theorem applied to absent metadata. -/
theorem c4_classification_total_amended_witness :
    (∃ s, getGenre none = some s) ∧
    getLevel (some ⟨some [], some [], some [], some []⟩) = unknownStr :=
  c4_classification_total_amended none (fun _ haf => nomatch haf)

/-- C5 (confirmed): with no genre key present (or metadata absent) the
genre is 'Unknown'; otherwise it is the first element of the first
present genre key, title-cased and trimmed, with '/' replaced by ',',
and only the substring before the first comma, trimmed, is kept. -/
theorem c5_genre_extraction :
    getGenre none = some unknownStr ∧
    (∀ af : MetadataView, firstGenreVal af = none →
      getGenre (some af) = some unknownStr) ∧
    (∀ (af : MetadataView) (x : PyStr) (xs : List PyStr),
      firstGenreVal af = some (x :: xs) →
      getGenre (some af) =
        some (pyStrip ((pyReplaceChar '/' ',' (pyStrip (pyTitle x))).takeWhile
          (fun c => c != ',')))) := by
  refine ⟨rfl, ?_, ?_⟩
  · intro af h
    simp only [getGenre, h]
    decide
  · intro af x xs h
    simp only [getGenre, h, genreFinal, firstSeg_pySplit]

/-- C5 witness: a view whose genre value is Rock/Pop. -/
theorem c5_genre_extraction_witness :
    getGenre (some ⟨some [pstr "Rock/Pop"], none, none, none⟩) =
      some (pyStrip ((pyReplaceChar '/' ','
        (pyStrip (pyTitle (pstr "Rock/Pop")))).takeWhile (fun c => c != ','))) :=
  c5_genre_extraction.2.2 ⟨some [pstr "Rock/Pop"], none, none, none⟩
    (pstr "Rock/Pop") [] rfl

/-- C6 (confirmed): the comment is split on commas, each token is
stripped and tested against the single-level pattern then the range
pattern; the first token matching either becomes the level, 'Unknown'
when none matches, and absent metadata yields level 'l0'. -/
theorem c6_level_extraction :
    (∀ comment : PyStr,
      getLevelFromComment comment =
        (((pySplit ',' comment).map pyStrip).find?
          (fun t => isLevelTok t || isMultiTok t)).getD unknownStr) ∧
    getLevel none = l0Str := by
  refine ⟨?_, rfl⟩
  intro comment
  exact scanTokens_eq_find (pySplit ',' comment)

/-- C7 (confirmed): fix_ffmpeg_tag collapses a duplicated tag value —
first half equal to the remainder after the middle character — to the
single value and otherwise returns the input unchanged; in particular
it maps Rock;Rock to Rock and leaves Pop;Jazz untouched. -/
theorem c7_fix_ffmpeg_tag :
    (∀ (tag : PyStr) (rest : List PyStr),
      tag.take (tag.length / 2) = tag.drop (tag.length / 2 + 1) →
      fixFfmpegTag (tag :: rest) = some [tag.take (tag.length / 2)]) ∧
    (∀ (tag : PyStr) (rest : List PyStr),
      tag.take (tag.length / 2) ≠ tag.drop (tag.length / 2 + 1) →
      fixFfmpegTag (tag :: rest) = some (tag :: rest)) ∧
    fixFfmpegTag [pstr "Rock;Rock"] = some [pstr "Rock"] ∧
    fixFfmpegTag [pstr "Pop;Jazz"] = some [pstr "Pop;Jazz"] := by
  refine ⟨?_, ?_, by decide, by decide⟩
  · intro tag rest h
    simp [fixFfmpegTag, h]
  · intro tag rest h
    simp [fixFfmpegTag, h]

/-- C7 witness: the collapse branch applied to Jazz;Jazz. -/
theorem c7_fix_ffmpeg_tag_witness :
    fixFfmpegTag [pstr "Jazz;Jazz"] =
      some [(pstr "Jazz;Jazz").take ((pstr "Jazz;Jazz").length / 2)] :=
  c7_fix_ffmpeg_tag.1 (pstr "Jazz;Jazz") [] (by decide)

/-- C8 counterexample: when the intermediate genre component /out/Rock
exists as a plain file (and the full /out/Rock/l3 path does not),
os.makedirs raises an uncaught exception and the run crashes instead
of skipping the file: the conflict handling is not per-component. -/
theorem c8_component_conflict_aborts :
    processFile conflictGenreFS (pstr "/out") (pstr "/lib/a.mp3") (pstr "a.mp3")
      rockTags ⟨false, false, false⟩ = (Outcome.crashed, []) := by decide

/-- C8 (amended): only when the full genre/level directory path itself
exists as a plain file does the orchestrator skip the file with a
warning and continue; a plain file at the intermediate genre component
instead aborts the run via an uncaught makedirs exception. -/
theorem c8_leaf_conflict_skips (fs : FS) (destination src base : PyStr)
    (tags : MetadataView) (fl : Flags) (g l : PyStr)
    (hsub : getDestinationSubfolder (getAudiofile (pyLower (extOf base)) tags) =
      some (g, l))
    (hfile : fs (osJoin (osJoin destination g) l) = FType.file) :
    processFile fs destination src base tags fl = (Outcome.skipDestIsFile, []) := by
  simp only [processFile, hsub, mainAfterClassify]
  rw [hfile]
  simp

/-- C8 witness: the leaf /out/Unknown/l0 exists as a plain file and
the file is skipped. -/
theorem c8_leaf_conflict_skips_witness :
    processFile conflictLeafFS (pstr "/out") (pstr "/lib/b.wav") (pstr "b.wav")
      rockTags ⟨false, false, false⟩ = (Outcome.skipDestIsFile, []) :=
  c8_leaf_conflict_skips conflictLeafFS (pstr "/out") (pstr "/lib/b.wav")
    (pstr "b.wav") rockTags ⟨false, false, false⟩ unknownStr l0Str
    (by decide) (by decide)

/-- C9 (confirmed): in every reachable state of the pool model, at
most THREADPOOL_SIZE = 3 transcode jobs hold a permit (execute the
encoder) simultaneously, and once the run reports done every
dispatched job has finished (none pending, none running). -/
theorem c9_concurrency_bound (s : PoolState) (h : PoolReachable s) :
    s.running ≤ THREADPOOL_SIZE ∧
    (s.done = true → s.pending = 0 ∧ s.running = 0) := by
  obtain ⟨hsem, hdone⟩ := poolInv_reachable h
  exact ⟨by omega, hdone⟩

/-- C9 witness: the bound holds at the initial state. -/
theorem c9_concurrency_bound_witness :
    initPool.running ≤ THREADPOOL_SIZE ∧
    (initPool.done = true → initPool.pending = 0 ∧ initPool.running = 0) :=
  c9_concurrency_bound initPool PoolReachable.init

/-- C10 (confirmed, implicit): fix_ffmpeg_tag never inspects the middle
character: whenever the first half equals the substring after the
middle position it collapses, whatever that middle character is —
RockXRock collapses to Rock — and every single-character tag collapses
to the empty string. -/
theorem c10_middle_char_ignored :
    (∀ (tag : PyStr) (rest : List PyStr),
      tag.take (tag.length / 2) = tag.drop (tag.length / 2 + 1) →
      fixFfmpegTag (tag :: rest) = some [tag.take (tag.length / 2)]) ∧
    fixFfmpegTag [pstr "RockXRock"] = some [pstr "Rock"] ∧
    (∀ c : Char, fixFfmpegTag [[c]] = some [([] : PyStr)]) := by
  refine ⟨?_, by decide, ?_⟩
  · intro tag rest h
    simp [fixFfmpegTag, h]
  · intro c
    simp [fixFfmpegTag]

/-- C10 witness: the collapse applied to a tag with a space as the
middle separator. -/
theorem c10_middle_char_ignored_witness :
    fixFfmpegTag [pstr "ab ab"] =
      some [(pstr "ab ab").take ((pstr "ab ab").length / 2)] :=
  c10_middle_char_ignored.1 (pstr "ab ab") [] (by decide)
